import Mathlib

/-!
Verification of the proposed-operation validation and reconciliation engine of
the BudgiBot spreadsheet UI, as a shallow embedding in Lean 4.

Embedded source files:
* src/frontend/src/Helpers/applyOpsToUniver.tsx — history store, capture,
  applyOpsToUniver, rollbackOperation, clearOperationHistory;
* src/unnamed/part_006 — ValidationToolbar revision with the applied flag
  (updateStatus, canConfirm, handleConfirm);
* src/frontend/src/Components/ValidationToolbar.tsx — ValidationToolbar revision
  without the applied flag (updateStatus, here named updateStatusWs, and the
  same canConfirm and handleConfirm partition logic).

The spreadsheet engine itself (Univer) is an external, pre-built collaborator:
its narrow query and mutation surface is modelled from the spec (sections 4.1,
6 and 9), as noted on each engine primitive below.
-/

namespace Budgi

/-- A cell value observable through the engine adapter: numbers and strings.
The adapter getValue call returns null for an empty cell, which the embedding
renders as none. -/
inductive CellValue
  | num (n : Int)
  | str (s : String)
deriving DecidableEq, Repr

/-- One cell of the grid: an optional cached value and an optional formula.
The adapter getFormula call returns the empty string when no formula exists;
the embedding keeps the formula as an Option and converts at the boundary. -/
structure Cell where
  v : Option CellValue
  f : Option String
deriving DecidableEq, Repr

/-- The empty cell: no value, no formula. -/
def Cell.empty : Cell := { v := none, f := none }

/-- The string the adapter getFormula call returns for a cell: the formula,
or the empty string when there is none. -/
def tsFormula (c : Cell) : String := c.f.getD ""

/-- Sparse cell storage of one sheet, keyed by row and column. -/
abbrev CellMap := List ((Nat × Nat) × Cell)

/-- Read one cell; absent keys denote the empty cell. -/
def lookupCell (m : CellMap) (r c : Nat) : Cell :=
  match m.find? (fun e => decide (e.1 = (r, c))) with
  | some e => e.2
  | none => Cell.empty

/-- Write one cell at a key, replacing whatever was stored there. -/
def setCellMap (m : CellMap) (r c : Nat) (cell : Cell) : CellMap :=
  ((r, c), cell) :: m.filter (fun e => decide (e.1 ≠ (r, c)))

/-- One sheet of the workbook: name, grid dimensions, sparse cell data.
This same shape serves for live sheets, for payload snapshots of
REPLACE_SHEET operations, and for captured history snapshots. -/
structure Sheet where
  name : String
  rowCount : Nat
  columnCount : Nat
  cells : CellMap
deriving DecidableEq, Repr

/-- The active workbook: the ordered list of its sheets. -/
abbrev Workbook := List Sheet

/-- Adapter getSheetByName: the first sheet carrying the name, if any. -/
def getSheetByName (wb : Workbook) (nm : String) : Option Sheet :=
  wb.find? (fun s => decide (s.name = nm))

/-- Whether a sheet with the given name exists in the workbook. -/
def sheetExists (wb : Workbook) (nm : String) : Bool :=
  (getSheetByName wb nm).isSome

/-- Ordinal index of the first sheet carrying the name, if any. -/
def getSheetIdx : Workbook → String → Option Nat
  | [], _ => none
  | s :: t, nm => if s.name = nm then some 0 else (getSheetIdx t nm).map (· + 1)

/-- Replace the first sheet carrying the name by its image under f,
leaving every other sheet untouched. -/
def modifySheet : Workbook → String → (Sheet → Sheet) → Workbook
  | [], _, _ => []
  | s :: rest, nm, f =>
      if s.name = nm then f s :: rest else s :: modifySheet rest nm f

/-- Modelled from the spec: the engine create call (wb.create). The engine
errors on a duplicate name (spec section 4.1); every call site in
applyOpsToUniver.tsx passes the end index wb.getSheets().length or omits the
index, so a successful creation appends the sheet at the end of the list. -/
def wbCreate (wb : Workbook) (s : Sheet) : Option Workbook :=
  if sheetExists wb s.name then none else some (wb ++ [s])

/-- Modelled from the spec: the engine deleteSheet call. Removes the first
sheet carrying the name and reports whether one was found. -/
def wbDeleteSheet (wb : Workbook) (nm : String) : Bool × Workbook :=
  (sheetExists wb nm, wb.eraseP (fun s => decide (s.name = nm)))

/-- Modelled from the spec: the engine range.setValue call on one cell.
A string beginning with the equals sign is entered as a formula, whose cached
value the engine computes through the abstract formula evaluator ev (formula
evaluation itself is out of scope); the empty string clears the cell (spec
section 9 treats clear content as authoritative); any other input becomes the
plain value of the cell and discards any formula. -/
def setValueCell (ev : String → Option CellValue) (x : CellValue) : Cell :=
  match x with
  | .num n => { v := some (.num n), f := none }
  | .str s =>
      if s = "" then Cell.empty
      else if s.startsWith "=" then { v := ev s, f := some s }
      else { v := some (.str s), f := none }

/-- Modelled from the spec: the engine range.setValues call over the rectangle
from the origin to the given dimensions: cells inside the rectangle are
overwritten by the supplied data (absent keys clearing the cell), cells
outside it are kept. -/
def rangeSetValues (cells : CellMap) (maxRow maxCol : Nat) (data : CellMap) : CellMap :=
  cells.filter (fun e => decide (¬(e.1.1 < maxRow ∧ e.1.2 < maxCol)))
    ++ data.filter (fun e => decide (e.1.1 < maxRow ∧ e.1.2 < maxCol))

/-- Store one cell into a sheet, leaving name and dimensions unchanged. -/
def setCellInSheet (r c : Nat) (cell : Cell) (s : Sheet) : Sheet :=
  { s with cells := setCellMap s.cells r c cell }

/-- The in-place REPLACE_SHEET mutation used both by the apply dispatch and
by rollback when the target name exists: resize the sheet to the snapshot
dimensions and overwrite the resized rectangle with the snapshot cells
(setRowCount, setColumnCount, then range.setValues). The sheet keeps its name
and its position in the workbook. -/
def replaceInPlace (p : Sheet) (s : Sheet) : Sheet :=
  { s with rowCount := p.rowCount, columnCount := p.columnCount,
           cells := rangeSetValues s.cells p.rowCount p.columnCount p.cells }

/-- The payload of one proposed operation; the TypeScript type discriminant
plus its type-specific payload record become one tagged union. The value
unwrapping in applyOpsToUniver.tsx (value?.v !== undefined ? value.v : value)
is type plumbing between the two wire encodings of the same value, so the
embedding carries the cell value directly. -/
inductive OpPayload
  | updateCell (sheet : String) (row col : Nat) (value : CellValue)
  | createSheet (sheet_name : String)
  | deleteSheet (sheet_name : String)
  | replaceSheet (data : Sheet)
deriving DecidableEq, Repr

/-- One proposed operation, per src/frontend/src/Shared/Contract.tsx
(the description field plays no role in the embedded logic). -/
structure Operation where
  id : String
  payload : OpPayload
deriving DecidableEq, Repr

/-- A captured pre-operation state, per captureStateBeforeOperation in
src/frontend/src/Helpers/applyOpsToUniver.tsx. -/
inductive HistoryEntry
  | updateCell (sheet : String) (row col : Nat) (originalValue : Option CellValue)
      (originalFormula : String) (hadValue : Bool)
  | createSheet (sheet_name : String)
  | deleteSheet (sheet_name : String) (sheetData : Sheet)
  | replaceSheet (sheetData : Sheet)
deriving DecidableEq, Repr

/-- The operation history store: the module level Map from operation id to
captured entry in applyOpsToUniver.tsx. -/
abbrev Hist := List (String × HistoryEntry)

/-- Map.get: the entry stored under the key, if any. -/
def histGet (h : Hist) (k : String) : Option HistoryEntry :=
  match h.find? (fun e => decide (e.1 = k)) with
  | some e => some e.2
  | none => none

/-- Map.delete: remove any entry stored under the key. -/
def histDelete (h : Hist) (k : String) : Hist :=
  h.filter (fun e => decide (e.1 ≠ k))

/-- Map.set: store an entry under the key, replacing any previous one. -/
def histSet (h : Hist) (k : String) (v : HistoryEntry) : Hist :=
  (k, v) :: histDelete h k

/-- The combined mutable state the module operates on: the active workbook of
the engine and the operation history store. -/
structure EngineState where
  wb : Workbook
  hist : Hist
deriving DecidableEq, Repr

/-- The truthiness test applyOpsToUniver.tsx applies to a captured value:
the value is neither null nor undefined nor the empty string. -/
def hadValueB : Option CellValue → Bool
  | none => false
  | some (.str s) => decide (s ≠ "")
  | some (.num _) => true

/-- The cell data snapshot loop shared by the DELETE_SHEET and REPLACE_SHEET
branches of captureStateBeforeOperation: every coordinate inside the grid
whose cell has a value or a formula is recorded. -/
def snapshotCells (s : Sheet) : CellMap :=
  ((List.range s.rowCount).map (fun r =>
    (List.range s.columnCount).filterMap (fun c =>
      let cell := lookupCell s.cells r c
      if cell.v.isSome ∨ tsFormula cell ≠ "" then
        some ((r, c), { v := cell.v,
                        f := if tsFormula cell = "" then none else some (tsFormula cell) })
      else none))).flatten

/-- Full snapshot of a sheet as captured before DELETE_SHEET or REPLACE_SHEET:
name, dimensions and cell data. No ordinal index is recorded. -/
def snapshotSheet (nm : String) (s : Sheet) : Sheet :=
  { name := nm, rowCount := s.rowCount, columnCount := s.columnCount,
    cells := snapshotCells s }

/-- captureStateBeforeOperation from applyOpsToUniver.tsx: compute the history
entry for one operation against the current workbook, or none when the
referenced sheet does not exist (nothing to roll back to). -/
def captureStateBeforeOperation (wb : Workbook) (op : Operation) : Option HistoryEntry :=
  match op.payload with
  | .updateCell sh r c _ =>
      match getSheetByName wb sh with
      | none => none
      | some s =>
          let cell := lookupCell s.cells r c
          some (.updateCell sh r c cell.v (tsFormula cell) (hadValueB cell.v))
  | .createSheet nm => some (.createSheet nm)
  | .deleteSheet nm =>
      match getSheetByName wb nm with
      | none => none
      | some s => some (.deleteSheet nm (snapshotSheet nm s))
  | .replaceSheet p =>
      match getSheetByName wb p.name with
      | none => none
      | some s => some (.replaceSheet (snapshotSheet p.name s))

/-- The per-operation dispatch of applyOpsToUniver: the effect of one
operation on the workbook. An engine error (create on a duplicate name) is
caught by the per-operation try/catch and leaves the workbook unchanged, as
does a missing target sheet. -/
def applyDispatch (ev : String → Option CellValue) (wb : Workbook) (op : Operation) : Workbook :=
  match op.payload with
  | .createSheet nm =>
      match wbCreate wb { name := nm, rowCount := 300, columnCount := 52, cells := [] } with
      | some wb2 => wb2
      | none => wb
  | .deleteSheet nm =>
      if sheetExists wb nm then (wbDeleteSheet wb nm).2 else wb
  | .updateCell sh r c x =>
      if sheetExists wb sh then
        modifySheet wb sh (setCellInSheet r c (setValueCell ev x))
      else wb
  | .replaceSheet p =>
      if sheetExists wb p.name then
        modifySheet wb p.name (replaceInPlace p)
      else
        match wbCreate wb { name := p.name, rowCount := p.rowCount,
                            columnCount := p.columnCount, cells := p.cells } with
        | some wb2 => wb2
        | none => wb

/-- One iteration of the forEach loop in applyOpsToUniver: when capture is
requested and yields an entry, store it under the operation id (Map.set, with
no prior has check), then dispatch the operation inside try/catch. -/
def applyOneOp (ev : String → Option CellValue) (captureHistory : Bool)
    (st : EngineState) (op : Operation) : EngineState :=
  let hist2 :=
    if captureHistory then
      match captureStateBeforeOperation st.wb op with
      | some e => histSet st.hist op.id e
      | none => st.hist
    else st.hist
  { wb := applyDispatch ev st.wb op, hist := hist2 }

/-- applyOpsToUniver from src/frontend/src/Helpers/applyOpsToUniver.tsx:
apply the operations in list order, best effort per item. -/
def applyOpsToUniver (ev : String → Option CellValue) (ops : List Operation)
    (captureHistory : Bool) (st : EngineState) : EngineState :=
  ops.foldl (applyOneOp ev captureHistory) st

/-- The cell the UPDATE_CELL branch of rollbackOperation writes back: the
original formula when one existed (formula precedence), else the original raw
value when the cell had one, else the empty string, which the engine setValue
model renders as a cleared cell. -/
def restoredCell (ev : String → Option CellValue) (ov : Option CellValue)
    (of2 : String) (hv : Bool) : Cell :=
  if of2 ≠ "" then setValueCell ev (.str of2)
  else if hv then setValueCell ev (ov.getD (.str ""))
  else setValueCell ev (.str "")

/-- rollbackOperation from src/frontend/src/Helpers/applyOpsToUniver.tsx:
restore the captured pre-state of one operation. Returns false, changing
nothing, when no entry exists, when the target sheet of an UPDATE_CELL entry
is gone, or when recreating a deleted sheet hits an occupied name (the engine
create error lands in the catch). On success the entry is removed from the
history store and true is returned. -/
def rollbackOperation (ev : String → Option CellValue) (op : Operation)
    (st : EngineState) : Bool × EngineState :=
  match histGet st.hist op.id with
  | none => (false, st)
  | some e =>
    match e with
    | .updateCell sh r c origV origF hadV =>
        if sheetExists st.wb sh then
          (true, { wb := modifySheet st.wb sh
                     (setCellInSheet r c (restoredCell ev origV origF hadV)),
                   hist := histDelete st.hist op.id })
        else (false, st)
    | .createSheet nm =>
        let wb2 := if sheetExists st.wb nm then (wbDeleteSheet st.wb nm).2 else st.wb
        (true, { wb := wb2, hist := histDelete st.hist op.id })
    | .deleteSheet _ snap =>
        match wbCreate st.wb snap with
        | some wb2 => (true, { wb := wb2, hist := histDelete st.hist op.id })
        | none => (false, st)
    | .replaceSheet snap =>
        let wb2 :=
          if sheetExists st.wb snap.name then
            modifySheet st.wb snap.name (replaceInPlace snap)
          else st.wb
        (true, { wb := wb2, hist := histDelete st.hist op.id })

/-- clearOperationHistory from applyOpsToUniver.tsx: delete the entries of the
given operation ids from the history store. -/
def clearOperationHistory (operationIds : List String) (h : Hist) : Hist :=
  operationIds.foldl histDelete h

/-- Per-operation validation status of the session controller. -/
inductive ValidationStatus
  | pending
  | accepted
  | refused
deriving DecidableEq, Repr

/-- ValidationItem of the toolbar revision in src/unnamed/part_006: the
tracked operation, its status, and whether its effect is currently live. -/
structure ValidationItem where
  operation : Operation
  status : ValidationStatus
  applied : Bool
deriving DecidableEq, Repr

/-- updateStatus from src/unnamed/part_006 (lines 88 to 115): the single-item
status transition. Refusing an applied item first rolls it back and aborts the
whole transition (returning the previous list) when rollback reports failure;
accepting an item whose effect is not live re-applies it first. An out of
range index is modelled as a no-op. -/
def updateStatus (ev : String → Option CellValue) (items : List ValidationItem)
    (index : Nat) (newStatus : ValidationStatus) (st : EngineState) :
    List ValidationItem × EngineState :=
  match items.get? index with
  | none => (items, st)
  | some item =>
      if newStatus = .refused ∧ item.applied = true then
        let res := rollbackOperation ev item.operation st
        if res.1 then
          (items.set index { item with applied := false, status := .refused }, res.2)
        else
          (items, res.2)
      else if newStatus = .accepted ∧ item.applied = false then
        let st2 := applyOpsToUniver ev [item.operation] true st
        (items.set index { item with applied := true, status := .accepted }, st2)
      else
        (items.set index { item with status := newStatus }, st)

/-- ValidationItem of the toolbar revision in
src/frontend/src/Components/ValidationToolbar.tsx, which tracks no applied
flag. -/
structure ValidationItemWs where
  operation : Operation
  status : ValidationStatus
deriving DecidableEq, Repr

/-- updateStatus from src/frontend/src/Components/ValidationToolbar.tsx
(lines 87 to 111): rolls back only on the accepted to refused edge, discards
the rollback result (handleRollback merely logs a failure), re-applies on the
refused to accepted edge, and always installs the new status. -/
def updateStatusWs (ev : String → Option CellValue) (items : List ValidationItemWs)
    (index : Nat) (status : ValidationStatus) (st : EngineState) :
    List ValidationItemWs × EngineState :=
  match items.get? index with
  | none => (items, st)
  | some item =>
      let st2 :=
        if item.status = .accepted ∧ status = .refused then
          (rollbackOperation ev item.operation st).2
        else if item.status = .refused ∧ status = .accepted then
          applyOpsToUniver ev [item.operation] true st
        else st
      (items.set index { item with status := status }, st2)

/-- canConfirm of both toolbar revisions: every item has a non-pending
status. -/
def canConfirm (items : List ValidationItem) : Bool :=
  items.all (fun v => decide (v.status ≠ .pending))

/-- handleConfirm of both toolbar revisions: when canConfirm holds, partition
the batch into the accepted and refused id lists in order of appearance, and
clear the history entries of every id of the batch; otherwise do nothing. The
transport emission carries exactly the two returned lists. -/
def handleConfirm (items : List ValidationItem) (hist : Hist) :
    Option (List String × List String × Hist) :=
  if canConfirm items then
    some ((items.filter (fun v => decide (v.status = .accepted))).map (fun v => v.operation.id),
          (items.filter (fun v => decide (v.status = .refused))).map (fun v => v.operation.id),
          clearOperationHistory (items.map (fun v => v.operation.id)) hist)
  else none

/-- Modelled from the spec: the module-visible programmatic-change flag of
applyOpsToUniver.tsx. UniverSheet.tsx imports isApplyingProgrammaticChange
from that module, but the revision of applyOpsToUniver.tsx present under src
does not define it; the flag discipline is therefore modelled from spec
sections 4.3 and 5. A call to apply or rollback is rendered as its sequence of
primitive events: the synchronous flag writes and the engine mutations between
them. -/
inductive FlagEvent
  | setFlag (b : Bool)
  | mutate (opId : String)
deriving DecidableEq, Repr

/-- Modelled from the spec: the event sequence of one apply call (a rollback
call is the singleton list case): the flag is set before the first mutation
and synchronously reset in a finally clause after the last. -/
def applyCallEvents (ops : List Operation) : List FlagEvent :=
  FlagEvent.setFlag true :: (ops.map (fun op => FlagEvent.mutate op.id) ++ [FlagEvent.setFlag false])

/-- Effect of one event on the flag. -/
def stepFlag (b : Bool) : FlagEvent → Bool
  | .setFlag b2 => b2
  | .mutate _ => b

/-- Flag value after a sequence of events has run. -/
def flagAfter (b : Bool) : List FlagEvent → Bool
  | [] => b
  | e :: rest => flagAfter (stepFlag b e) rest

/-- Modelled from the spec: the accessor the cell-change listener in
UniverSheet.tsx consults (it returns early when the accessor yields true). -/
def isApplyingProgrammaticChange (flag : Bool) : Bool := flag

/-- Modelled from the spec: the mutations the cell-change listener of
UniverSheet.tsx would report to the backend as user edits: those it observes
while isApplyingProgrammaticChange yields false. -/
def reportedAsUserEdits (b : Bool) : List FlagEvent → List String
  | [] => []
  | .setFlag b2 :: rest => reportedAsUserEdits b2 rest
  | .mutate i :: rest =>
      (if isApplyingProgrammaticChange b then [] else [i]) ++ reportedAsUserEdits b rest

/-- A trivial formula evaluator used for concrete scenarios: every formula
computes to null. -/
def evZero : String → Option CellValue := fun _ => none

/-- A one-cell sheet named S whose cell (0, 0) holds the number 1. -/
def sampleSheet : Sheet :=
  { name := "S", rowCount := 1, columnCount := 1,
    cells := [((0, 0), { v := some (.num 1), f := none })] }

/-- An UPDATE_CELL operation setting cell (0, 0) of sheet S to the number 5. -/
def sampleOp : Operation := { id := "u1", payload := .updateCell "S" 0 0 (.num 5) }

/-- Initial engine state for the concrete scenarios: the one-cell sheet and an
empty history store. -/
def st0 : EngineState := { wb := [sampleSheet], hist := [] }

/-- The cell stored at the coordinates of the named sheet of a workbook, the
empty cell when the sheet is absent. -/
def getCellInWb (wb : Workbook) (nm : String) (r c : Nat) : Cell :=
  match getSheetByName wb nm with
  | some s => lookupCell s.cells r c
  | none => Cell.empty

/-- A cell state producible through the engine setValue primitive under the
evaluator ev: a stored formula is a nonempty string beginning with the equals
sign whose cached value agrees with the evaluator, and a plain string value is
nonempty and not formula shaped. -/
def cellWellFormed (ev : String → Option CellValue) (c : Cell) : Bool :=
  match c.f with
  | some s => decide (s ≠ "") && s.startsWith "=" && decide (c.v = ev s)
  | none =>
      match c.v with
      | some (.str s) => decide (s ≠ "") && !(s.startsWith "=")
      | _ => true

/-! ### Basic lemmas on the history store, the workbook and the flag model -/

theorem histGet_histSet_self (h : Hist) (k : String) (v : HistoryEntry) :
    histGet (histSet h k v) k = some v := by
  simp [histGet, histSet, List.find?]

theorem histGet_histDelete (h : Hist) (k i : String) :
    histGet (histDelete h k) i = if i = k then none else histGet h i := by
  induction h with
  | nil => by_cases hik : i = k <;> simp [histGet, histDelete, hik]
  | cons e t ih =>
      by_cases hek : e.1 = k
      · have hdrop : histDelete (e :: t) k = histDelete t k := by
          simp [histDelete, List.filter_cons, hek]
        rw [hdrop, ih]
        by_cases hik : i = k
        · simp [hik]
        · have hei : ¬(e.1 = i) := fun he => hik (by rw [← he, hek])
          simp [hik, histGet, List.find?, hei]
      · have hkeep : histDelete (e :: t) k = e :: histDelete t k := by
          simp [histDelete, List.filter_cons, hek]
        rw [hkeep]
        by_cases hei : e.1 = i
        · have hik : ¬(i = k) := fun hik2 => hek (by rw [hei, hik2])
          simp [histGet, List.find?, hei, hik]
        · have l1 : histGet (e :: histDelete t k) i = histGet (histDelete t k) i := by
            simp [histGet, List.find?, hei]
          have l2 : histGet (e :: t) i = histGet t i := by
            simp [histGet, List.find?, hei]
          rw [l1, ih, l2]

theorem histGet_clearOperationHistory (ids : List String) (h : Hist) (i : String) :
    histGet (clearOperationHistory ids h) i = if i ∈ ids then none else histGet h i := by
  induction ids generalizing h with
  | nil => simp [clearOperationHistory]
  | cons a t ih =>
      have step : clearOperationHistory (a :: t) h = clearOperationHistory t (histDelete h a) := rfl
      rw [step, ih]
      by_cases hit : i ∈ t
      · simp [hit]
      · by_cases hia : i = a
        · simp [hit, hia, histGet_histDelete]
        · simp [hit, hia, histGet_histDelete, List.mem_cons]

theorem lookupCell_setCellMap_self (m : CellMap) (r c : Nat) (cell : Cell) :
    lookupCell (setCellMap m r c cell) r c = cell := by
  simp [lookupCell, setCellMap, List.find?]

theorem modifySheet_map_name (wb : Workbook) (nm : String) (f : Sheet → Sheet)
    (hf : ∀ s, (f s).name = s.name) :
    (modifySheet wb nm f).map Sheet.name = wb.map Sheet.name := by
  induction wb with
  | nil => rfl
  | cons s t ih =>
      by_cases h : s.name = nm
      · simp [modifySheet, h, hf]
      · simp [modifySheet, h, ih]

theorem getSheetByName_modifySheet_self (wb : Workbook) (nm : String) (f : Sheet → Sheet)
    (hf : ∀ s, (f s).name = s.name) :
    getSheetByName (modifySheet wb nm f) nm = (getSheetByName wb nm).map f := by
  induction wb with
  | nil => rfl
  | cons s t ih =>
      by_cases h : s.name = nm
      · simp [modifySheet, getSheetByName, List.find?, h, hf]
      · simp [modifySheet, getSheetByName, List.find?, h] at ih ⊢
        exact ih

theorem getSheetIdx_modifySheet (wb : Workbook) (nm nm2 : String) (f : Sheet → Sheet)
    (hf : ∀ s, (f s).name = s.name) :
    getSheetIdx (modifySheet wb nm f) nm2 = getSheetIdx wb nm2 := by
  induction wb with
  | nil => rfl
  | cons s t ih =>
      by_cases h : s.name = nm
      · simp [modifySheet, getSheetIdx, h, hf]
      · simp [modifySheet, getSheetIdx, h, ih]

theorem sheetExists_eq_isSome_getSheetIdx (wb : Workbook) (nm : String) :
    sheetExists wb nm = (getSheetIdx wb nm).isSome := by
  induction wb with
  | nil => rfl
  | cons s t ih =>
      by_cases h : s.name = nm
      · simp [sheetExists, getSheetByName, getSheetIdx, List.find?, h]
      · have l1 : sheetExists (s :: t) nm = sheetExists t nm := by
          simp [sheetExists, getSheetByName, List.find?, h]
        have l2 : getSheetIdx (s :: t) nm = (getSheetIdx t nm).map (· + 1) := by
          simp [getSheetIdx, h]
        rw [l1, l2, ih]
        cases getSheetIdx t nm <;> rfl

theorem getSheetIdx_append_self (wb : Workbook) (s : Sheet)
    (h : sheetExists wb s.name = false) :
    getSheetIdx (wb ++ [s]) s.name = some wb.length := by
  induction wb with
  | nil => simp [getSheetIdx]
  | cons a t ih =>
      have ha : ¬(a.name = s.name) := by
        intro he
        simp [sheetExists, getSheetByName, List.find?, he] at h
      have ht : sheetExists t s.name = false := by
        simp [sheetExists, getSheetByName, List.find?, ha] at h
        simpa [sheetExists, getSheetByName] using h
      simp [getSheetIdx, ha, ih ht]

theorem rollbackOperation_false (ev : String → Option CellValue) (op : Operation)
    (st : EngineState) (h : (rollbackOperation ev op st).1 = false) :
    (rollbackOperation ev op st).2 = st := by
  unfold rollbackOperation at h ⊢
  cases hg : histGet st.hist op.id with
  | none => simp [hg]
  | some e =>
      cases e with
      | updateCell sh r c ov of hv =>
          by_cases hex : sheetExists st.wb sh = true
          · simp [hg, hex] at h
          · simp at hex
            simp [hg, hex]
      | createSheet nm => simp [hg] at h
      | deleteSheet nm snap =>
          cases hc : wbCreate st.wb snap with
          | some wb2 => simp [hg, hc] at h
          | none => simp [hg, hc]
      | replaceSheet snap => simp [hg] at h

theorem flagAfter_append (b : Bool) (l1 l2 : List FlagEvent) :
    flagAfter b (l1 ++ l2) = flagAfter (flagAfter b l1) l2 := by
  induction l1 generalizing b with
  | nil => rfl
  | cons e t ih => simp [flagAfter, ih]

theorem flagAfter_mutates (b : Bool) (ops : List Operation) :
    flagAfter b (ops.map (fun op => FlagEvent.mutate op.id)) = b := by
  induction ops with
  | nil => rfl
  | cons a t ih => simp [flagAfter, stepFlag, ih]

theorem reported_mutates (ops : List Operation) (rest : List FlagEvent) :
    reportedAsUserEdits true (ops.map (fun op => FlagEvent.mutate op.id) ++ rest)
      = reportedAsUserEdits true rest := by
  induction ops with
  | nil => rfl
  | cons a t ih => simp [reportedAsUserEdits, isApplyingProgrammaticChange, ih]

theorem roundtrip_cell (ev : String → Option CellValue) (c : Cell)
    (hwf : cellWellFormed ev c = true) :
    restoredCell ev c.v (tsFormula c) (hadValueB c.v) = c := by
  obtain ⟨v, f⟩ := c
  cases f with
  | some s =>
      simp [cellWellFormed] at hwf
      obtain ⟨⟨hne, hsw⟩, hv⟩ := hwf
      simp [restoredCell, tsFormula, hne, setValueCell, hsw, hv]
  | none =>
      cases v with
      | none => simp [restoredCell, tsFormula, hadValueB, setValueCell, Cell.empty]
      | some cv =>
          cases cv with
          | num n => simp [restoredCell, tsFormula, hadValueB, setValueCell]
          | str s =>
              simp [cellWellFormed] at hwf
              obtain ⟨hne, hsw⟩ := hwf
              simp [restoredCell, tsFormula, hadValueB, hne, setValueCell, hsw]

theorem canConfirm_iff (items : List ValidationItem) :
    canConfirm items = true ↔ ∀ v ∈ items, v.status ≠ ValidationStatus.pending := by
  simp [canConfirm, List.all_eq_true]

theorem partition_perm (items : List ValidationItem)
    (h : ∀ v ∈ items, v.status ≠ ValidationStatus.pending) :
    ((items.filter (fun v => decide (v.status = .accepted))).map (fun v => v.operation.id)
      ++ (items.filter (fun v => decide (v.status = .refused))).map
        (fun v => v.operation.id)).Perm
      (items.map (fun v => v.operation.id)) := by
  induction items with
  | nil => simp
  | cons v t ih =>
      have hv := h v (List.mem_cons_self v t)
      have ht : ∀ w ∈ t, w.status ≠ ValidationStatus.pending :=
        fun w hw => h w (List.mem_cons_of_mem v hw)
      cases hs : v.status with
      | pending => exact absurd hs hv
      | accepted =>
          simp only [List.filter_cons, hs, List.map_cons, decide_True, decide_False,
            List.cons_append]
          simp only [show decide (ValidationStatus.accepted = ValidationStatus.accepted)
              = true from rfl,
            show decide (ValidationStatus.accepted = ValidationStatus.refused)
              = false from rfl, if_true, if_false, List.map_cons, List.cons_append]
          exact (ih ht).cons v.operation.id
      | refused =>
          simp only [List.filter_cons, hs, List.map_cons]
          simp only [show decide (ValidationStatus.refused = ValidationStatus.accepted)
              = false from rfl,
            show decide (ValidationStatus.refused = ValidationStatus.refused)
              = true from rfl, if_true, if_false, List.map_cons]
          exact (List.perm_middle).trans ((ih ht).cons v.operation.id)

theorem partition_disjoint (items : List ValidationItem)
    (hnd : (items.map (fun v => v.operation.id)).Nodup) (i : String)
    (hia : i ∈ (items.filter (fun v => decide (v.status = .accepted))).map
      (fun v => v.operation.id))
    (hir : i ∈ (items.filter (fun v => decide (v.status = .refused))).map
      (fun v => v.operation.id)) :
    False := by
  obtain ⟨v1, hv1, hid1⟩ := List.mem_map.mp hia
  obtain ⟨v2, hv2, hid2⟩ := List.mem_map.mp hir
  have hm1 := List.mem_filter.mp hv1
  have hm2 := List.mem_filter.mp hv2
  have heq : v1 = v2 :=
    List.inj_on_of_nodup_map hnd hm1.1 hm2.1 (by rw [hid1, hid2])
  have ha : v1.status = ValidationStatus.accepted := by simpa using hm1.2
  have hr : v2.status = ValidationStatus.refused := by simpa using hm2.2
  rw [heq, hr] at ha
  exact absurd ha (by decide)

/-! ### Claim theorems -/

/-- Claim C2, counterexample: history capture at apply is not idempotent.
Applying the same UPDATE_CELL operation twice with capture enabled leaves a
history entry different from the one after the first apply: the second apply
overwrites the entry with the post-first-application state. -/
theorem capture_not_idempotent_cex :
    let st1 := applyOpsToUniver evZero [sampleOp] true st0
    let st2 := applyOpsToUniver evZero [sampleOp] true st1
    histGet st2.hist "u1" ≠ histGet st1.hist "u1" := by
  decide

/-- Claim C2, amended: applyOpsToUniver guards capture by nothing: whenever
capture succeeds against the current workbook, the resulting history entry
under the operation id is exactly that capture, overwriting any entry already
stored there. The first observed pre-state survives a re-apply only because
rollbackOperation deletes the entry and the re-apply then re-captures the
restored state. -/
theorem applyOps_capture_overwrites (ev : String → Option CellValue)
    (st : EngineState) (op : Operation) (e : HistoryEntry)
    (h : captureStateBeforeOperation st.wb op = some e) :
    histGet (applyOpsToUniver ev [op] true st).hist op.id = some e := by
  simp [applyOpsToUniver, applyOneOp, h, histGet_histSet_self]

/-- Claim C2, witness: the amended theorem evaluated on the concrete one-cell
scenario. -/
theorem applyOps_capture_overwrites_witness :
    histGet (applyOpsToUniver evZero [sampleOp] true st0).hist sampleOp.id
      = some (.updateCell "S" 0 0 (some (.num 1)) "" true) :=
  applyOps_capture_overwrites evZero st0 sampleOp
    (.updateCell "S" 0 0 (some (.num 1)) "" true) (by decide)

/-- Claim C3, counterexample: a successful rollback does not leave the
history entry in place — after rolling back the applied sample operation the
store no longer holds an entry for its id. -/
theorem rollback_removes_entry_cex :
    let st1 := applyOpsToUniver evZero [sampleOp] true st0
    let res := rollbackOperation evZero sampleOp st1
    res.1 = true ∧ histGet res.2.hist "u1" = none := by
  decide

/-- Claim C3, amended: a successful rollback deletes the entry of the
operation from the History Store (a later re-accept re-applies with capture
enabled and re-captures the restored pre-state), while a failed rollback
leaves the whole state, history included, unchanged; finalize clears whatever
entries remain. -/
theorem rollback_deletes_entry_on_success (ev : String → Option CellValue)
    (op : Operation) (st : EngineState) :
    ((rollbackOperation ev op st).1 = true →
        histGet (rollbackOperation ev op st).2.hist op.id = none)
    ∧ ((rollbackOperation ev op st).1 = false → (rollbackOperation ev op st).2 = st) := by
  constructor
  · intro htrue
    unfold rollbackOperation at htrue ⊢
    cases hg : histGet st.hist op.id with
    | none => simp [hg] at htrue
    | some e =>
        cases e with
        | updateCell sh r c ov of hv =>
            by_cases hex : sheetExists st.wb sh = true
            · simp [hg, hex, histGet_histDelete]
            · simp at hex
              simp [hg, hex] at htrue
        | createSheet nm => simp [hg, histGet_histDelete]
        | deleteSheet nm snap =>
            cases hc : wbCreate st.wb snap with
            | some wb2 => simp [hg, hc, histGet_histDelete]
            | none => simp [hg, hc] at htrue
        | replaceSheet snap => simp [hg, histGet_histDelete]
  · exact rollbackOperation_false ev op st

/-- Claim C3, witness for the amended theorem: evaluated on the concrete
scenario in which rollback succeeds. -/
theorem rollback_deletes_entry_on_success_witness :
    histGet (rollbackOperation evZero sampleOp
        (applyOpsToUniver evZero [sampleOp] true st0)).2.hist sampleOp.id = none :=
  (rollback_deletes_entry_on_success evZero sampleOp
      (applyOpsToUniver evZero [sampleOp] true st0)).1 (by decide)

/-- Claim C6: on a fully decided batch with pairwise distinct operation ids,
handleConfirm produces the accepted and refused id lists in order of
appearance, together a permutation of all operation ids of the batch, with no
id in both lists. -/
theorem confirm_partition (items : List ValidationItem) (hist : Hist)
    (acc ref : List String) (hist2 : Hist)
    (hconf : handleConfirm items hist = some (acc, ref, hist2))
    (hnd : (items.map (fun v => v.operation.id)).Nodup) :
    (acc ++ ref).Perm (items.map (fun v => v.operation.id))
    ∧ (∀ i, i ∈ acc → i ∉ ref)
    ∧ acc.Sublist (items.map (fun v => v.operation.id))
    ∧ ref.Sublist (items.map (fun v => v.operation.id)) := by
  unfold handleConfirm at hconf
  by_cases hc : canConfirm items = true
  · simp only [hc, if_true, Option.some_inj] at hconf
    obtain ⟨rfl, rfl, rfl⟩ := Prod.mk.injEq .. ▸ hconf
    refine ⟨partition_perm items ((canConfirm_iff items).mp hc), ?_, ?_, ?_⟩
    · intro i hia hir
      exact partition_disjoint items hnd i hia hir
    · exact (List.filter_sublist items).map (fun v => v.operation.id)
    · exact (List.filter_sublist items).map (fun v => v.operation.id)
  · simp [hc] at hconf

/-- Claim C6, witness: a concrete two-item fully decided batch. -/
theorem confirm_partition_witness :
    (["u1"] ++ ["d1"]).Perm ["u1", "d1"]
    ∧ (∀ i, i ∈ ["u1"] → i ∉ ["d1"])
    ∧ List.Sublist ["u1"] ["u1", "d1"]
    ∧ List.Sublist ["d1"] ["u1", "d1"] :=
  confirm_partition
    [{ operation := sampleOp, status := .accepted, applied := true },
     { operation := { id := "d1", payload := .deleteSheet "A" }, status := .refused,
       applied := false }]
    [] ["u1"] ["d1"] [] (by decide) (by decide)

/-- Claim C7: after handleConfirm on a fully decided batch, the History Store
holds no entry for any operation id of the batch, refused ids included. -/
theorem confirm_clears_history (items : List ValidationItem) (hist : Hist)
    (acc ref : List String) (hist2 : Hist)
    (hconf : handleConfirm items hist = some (acc, ref, hist2)) :
    ∀ i ∈ items.map (fun v => v.operation.id), histGet hist2 i = none := by
  intro i hi
  unfold handleConfirm at hconf
  by_cases hc : canConfirm items = true
  · simp only [hc, if_true, Option.some_inj] at hconf
    have h2 : hist2 = clearOperationHistory (items.map (fun v => v.operation.id)) hist := by
      have := congrArg (fun p => p.2.2) hconf
      simpa using this.symm
    rw [h2, histGet_clearOperationHistory]
    simp [hi]
  · simp [hc] at hconf

/-- Claim C7, witness: concrete batch whose two history entries are both
cleared by confirm. -/
theorem confirm_clears_history_witness :
    histGet (clearOperationHistory
        [sampleOp.id, "d1"]
        [("u1", .createSheet "X"), ("d1", .createSheet "Y")]) "u1" = none := by
  have h := confirm_clears_history
    [{ operation := sampleOp, status := .accepted, applied := true },
     { operation := { id := "d1", payload := .deleteSheet "A" }, status := .refused,
       applied := false }]
    [("u1", .createSheet "X"), ("d1", .createSheet "Y")]
    ["u1"] ["d1"]
    (clearOperationHistory [sampleOp.id, "d1"]
      [("u1", .createSheet "X"), ("d1", .createSheet "Y")])
    (by decide)
  exact h "u1" (by decide)

/-- Claim C1, counterexample: in the toolbar revision of
src/frontend/src/Components/ValidationToolbar.tsx, setting an item to refused
does not respect the rollback result. Concretely: the sample operation is
applied with capture disabled (so rollback must fail for lack of history);
updateStatus to refused on the accepted item still flips the status to
refused, while the effect of the operation is still live in the sheet and no
history entry exists to recover it. -/
theorem updateStatusWs_ignores_rollback_failure_cex :
    let st1 := applyOpsToUniver evZero [sampleOp] false st0
    let res := updateStatusWs evZero [{ operation := sampleOp, status := .accepted }]
      0 .refused st1
    (res.1.get? 0).map (fun v => v.status) = some .refused
    ∧ (rollbackOperation evZero sampleOp st1).1 = false
    ∧ histGet res.2.hist "u1" = none
    ∧ getCellInWb res.2.wb "S" 0 0 = { v := some (.num 5), f := none } := by
  decide

/-- Claim C1, amended: the rollback-failure guard holds in the applied-flag
toolbar revision (src/unnamed/part_006): for an item whose operation is
currently applied, updateStatus to refused invokes rollbackOperation; on
success the item becomes refused with applied set to false, and on failure
the item list and the engine state are left entirely unchanged. The
Components/ValidationToolbar.tsx revision installs refused regardless of the
rollback result, as the counterexample shows. -/
theorem updateStatus_refused_rollback_guard (ev : String → Option CellValue)
    (items : List ValidationItem) (index : Nat) (st : EngineState)
    (item : ValidationItem) (hit : items.get? index = some item)
    (happ : item.applied = true) :
    ((rollbackOperation ev item.operation st).1 = true →
        updateStatus ev items index .refused st
          = (items.set index { item with applied := false, status := .refused },
             (rollbackOperation ev item.operation st).2))
    ∧ ((rollbackOperation ev item.operation st).1 = false →
        updateStatus ev items index .refused st = (items, st)) := by
  constructor
  · intro htrue
    unfold updateStatus
    rw [hit]
    simp [happ, htrue]
  · intro hfalse
    unfold updateStatus
    rw [hit]
    have hst := rollbackOperation_false ev item.operation st hfalse
    simp [happ, hfalse, hst]

/-- Claim C1, witness for the amended theorem: an applied pending item whose
rollback succeeds transitions to refused with applied false. -/
theorem updateStatus_refused_rollback_guard_witness :
    ((rollbackOperation evZero sampleOp (applyOpsToUniver evZero [sampleOp] true st0)).1 = true →
        updateStatus evZero [{ operation := sampleOp, status := .pending, applied := true }]
            0 .refused (applyOpsToUniver evZero [sampleOp] true st0)
          = ([{ operation := sampleOp, status := .pending, applied := true }].set 0
               { operation := sampleOp, status := .refused, applied := false },
             (rollbackOperation evZero sampleOp
               (applyOpsToUniver evZero [sampleOp] true st0)).2))
    ∧ ((rollbackOperation evZero sampleOp (applyOpsToUniver evZero [sampleOp] true st0)).1 = false →
        updateStatus evZero [{ operation := sampleOp, status := .pending, applied := true }]
            0 .refused (applyOpsToUniver evZero [sampleOp] true st0)
          = ([{ operation := sampleOp, status := .pending, applied := true }],
             applyOpsToUniver evZero [sampleOp] true st0)) :=
  updateStatus_refused_rollback_guard evZero
    [{ operation := sampleOp, status := .pending, applied := true }] 0
    (applyOpsToUniver evZero [sampleOp] true st0)
    { operation := sampleOp, status := .pending, applied := true } (by decide) (by decide)

/-- Two empty one-cell sheets used by the sheet-level concrete scenarios. -/
def sheetA : Sheet := { name := "A", rowCount := 1, columnCount := 1, cells := [] }

/-- Second sheet of the sheet-level concrete scenarios. -/
def sheetB : Sheet := { name := "B", rowCount := 1, columnCount := 1, cells := [] }

/-- A DELETE_SHEET operation against sheet A. -/
def delOp : Operation := { id := "d1", payload := .deleteSheet "A" }

/-- Claim C8, counterexample: sheet A sits at ordinal index 0 of the workbook
[A, B]; after applying DELETE_SHEET A and rolling it back, the recreated
sheet A sits at index 1, the end of the list, not at its original index 0. -/
theorem rollback_delete_position_cex :
    let st1 := applyOpsToUniver evZero [delOp] true { wb := [sheetA, sheetB], hist := [] }
    let res := rollbackOperation evZero delOp st1
    getSheetIdx [sheetA, sheetB] "A" = some 0
    ∧ res.1 = true
    ∧ getSheetIdx res.2.wb "A" = some 1 := by
  decide

/-- Claim C8, amended: the history entry for DELETE_SHEET and REPLACE_SHEET
stores name, dimensions and cell data but no ordinal index. Rolling back a
DELETE_SHEET entry recreates the snapshot sheet at the end of the sheet list
(its index becomes the current sheet count) when the name is free, and fails,
changing nothing, when the name is occupied — it does not delete the
occupant. Rolling back a REPLACE_SHEET entry overwrites the same-named sheet
in place, keeping every sheet name at its position, and changes no sheet when
the name is absent. -/
theorem rollback_sheet_restore_shape (ev : String → Option CellValue)
    (op : Operation) (st : EngineState) :
    (∀ nm snap, histGet st.hist op.id = some (.deleteSheet nm snap) →
        (sheetExists st.wb snap.name = false →
            rollbackOperation ev op st
              = (true, { wb := st.wb ++ [snap], hist := histDelete st.hist op.id })
            ∧ getSheetIdx (st.wb ++ [snap]) snap.name = some st.wb.length)
        ∧ (sheetExists st.wb snap.name = true → rollbackOperation ev op st = (false, st)))
    ∧ (∀ snap, histGet st.hist op.id = some (.replaceSheet snap) →
        (rollbackOperation ev op st).1 = true
        ∧ (rollbackOperation ev op st).2.wb.map Sheet.name = st.wb.map Sheet.name
        ∧ (sheetExists st.wb snap.name = false →
            (rollbackOperation ev op st).2.wb = st.wb)) := by
  constructor
  · intro nm snap hg
    constructor
    · intro hfree
      constructor
      · unfold rollbackOperation
        simp [hg, wbCreate, hfree]
      · exact getSheetIdx_append_self st.wb snap hfree
    · intro hocc
      unfold rollbackOperation
      simp [hg, wbCreate, hocc]
  · intro snap hg
    refine ⟨?_, ?_, ?_⟩
    · unfold rollbackOperation
      simp [hg]
    · unfold rollbackOperation
      by_cases hex : sheetExists st.wb snap.name = true
      · simp [hg, hex]
        exact modifySheet_map_name st.wb snap.name _ (fun s => rfl)
      · simp at hex
        simp [hg, hex]
    · intro hfree
      unfold rollbackOperation
      simp [hg, hfree]

/-- Claim C8, witness for the amended theorem: rolling back the deletion of
sheet A appends the snapshot at the end of the two-sheet workbook. -/
theorem rollback_sheet_restore_shape_witness :
    rollbackOperation evZero delOp
        (applyOpsToUniver evZero [delOp] true { wb := [sheetA, sheetB], hist := [] })
      = (true,
         { wb := (applyOpsToUniver evZero [delOp] true
             { wb := [sheetA, sheetB], hist := [] }).wb ++ [snapshotSheet "A" sheetA],
           hist := histDelete (applyOpsToUniver evZero [delOp] true
             { wb := [sheetA, sheetB], hist := [] }).hist delOp.id }) :=
  (((rollback_sheet_restore_shape evZero delOp
      (applyOpsToUniver evZero [delOp] true { wb := [sheetA, sheetB], hist := [] })).1
    "A" (snapshotSheet "A" sheetA) (by decide)).1 (by decide)).1

/-- Claim C9: applying a REPLACE_SHEET operation whose target name exists
leaves that sheet at its ordinal position (all sheet names keep their
positions); when the name does not exist, the payload sheet is appended at
the end of the workbook. Holds with history capture on or off. -/
theorem replaceSheet_apply_position (ev : String → Option CellValue)
    (st : EngineState) (opid : String) (p : Sheet) (ch : Bool) :
    (∀ i, getSheetIdx st.wb p.name = some i →
        getSheetIdx (applyOpsToUniver ev [{ id := opid, payload := .replaceSheet p }] ch st).wb
            p.name = some i
        ∧ (applyOpsToUniver ev [{ id := opid, payload := .replaceSheet p }] ch st).wb.map
            Sheet.name = st.wb.map Sheet.name)
    ∧ (getSheetIdx st.wb p.name = none →
        (applyOpsToUniver ev [{ id := opid, payload := .replaceSheet p }] ch st).wb
          = st.wb ++ [{ name := p.name, rowCount := p.rowCount,
                        columnCount := p.columnCount, cells := p.cells }]) := by
  have hwb : (applyOpsToUniver ev [{ id := opid, payload := .replaceSheet p }] ch st).wb
      = applyDispatch ev st.wb { id := opid, payload := .replaceSheet p } := by
    simp [applyOpsToUniver, applyOneOp]
  constructor
  · intro i hi
    have hex : sheetExists st.wb p.name = true := by
      rw [sheetExists_eq_isSome_getSheetIdx, hi]; rfl
    rw [hwb]
    unfold applyDispatch
    simp only [hex, if_true]
    constructor
    · rw [getSheetIdx_modifySheet st.wb p.name p.name (replaceInPlace p) (fun s => rfl)]
      exact hi
    · exact modifySheet_map_name st.wb p.name (replaceInPlace p) (fun s => rfl)
  · intro hnone
    have hex : sheetExists st.wb p.name = false := by
      rw [sheetExists_eq_isSome_getSheetIdx, hnone]; rfl
    rw [hwb]
    unfold applyDispatch
    simp [hex, wbCreate]

/-- The two-sheet engine state used by the sheet-level witnesses. -/
def stAB : EngineState := { wb := [sheetA, sheetB], hist := [] }

/-- Payload snapshot replacing sheet A with a two-by-two sheet. -/
def replPayloadA : Sheet := { name := "A", rowCount := 2, columnCount := 2, cells := [] }

/-- Payload snapshot for a replacement targeting the absent sheet D. -/
def replPayloadD : Sheet := { name := "D", rowCount := 2, columnCount := 3, cells := [] }

/-- Claim C9, witness: replacing sheet A of the workbook [A, B] keeps it at
index 0 and keeps the name list [A, B]. -/
theorem replaceSheet_apply_position_witness :
    getSheetIdx (applyOpsToUniver evZero
        [{ id := "r1", payload := .replaceSheet replPayloadA }] true stAB).wb "A" = some 0
    ∧ (applyOpsToUniver evZero
        [{ id := "r1", payload := .replaceSheet replPayloadA }] true stAB).wb.map Sheet.name
      = stAB.wb.map Sheet.name :=
  (replaceSheet_apply_position evZero stAB "r1" replPayloadA true).1 0 (by decide)

/-- Claim C10: a CREATE_SHEET operation on a free name creates the sheet with
exactly 300 rows and 52 columns — the payload contributes only the name —
while a sheet created by REPLACE_SHEET on a free name carries the row and
column counts (and cell data) of the payload snapshot. -/
theorem createSheet_fixed_dimensions (ev : String → Option CellValue)
    (st : EngineState) (opid nm : String) (p : Sheet) (ch : Bool) :
    (sheetExists st.wb nm = false →
        (applyOpsToUniver ev [{ id := opid, payload := .createSheet nm }] ch st).wb
          = st.wb ++ [{ name := nm, rowCount := 300, columnCount := 52, cells := [] }])
    ∧ (sheetExists st.wb p.name = false →
        (applyOpsToUniver ev [{ id := opid, payload := .replaceSheet p }] ch st).wb
          = st.wb ++ [{ name := p.name, rowCount := p.rowCount,
                        columnCount := p.columnCount, cells := p.cells }]) := by
  constructor
  · intro hfree
    simp [applyOpsToUniver, applyOneOp, applyDispatch, wbCreate, hfree]
  · intro hfree
    simp [applyOpsToUniver, applyOneOp, applyDispatch, wbCreate, hfree]

/-- Claim C10, witness: creating sheet C in the workbook [A, B] appends a 300
by 52 sheet, and replacing absent sheet D appends the 2 by 3 payload sheet. -/
theorem createSheet_fixed_dimensions_witness :
    (applyOpsToUniver evZero [{ id := "c1", payload := .createSheet "C" }] true stAB).wb
      = stAB.wb ++ [{ name := "C", rowCount := 300, columnCount := 52, cells := [] }]
    ∧ (applyOpsToUniver evZero [{ id := "r2", payload := .replaceSheet replPayloadD }]
        true stAB).wb
      = stAB.wb ++ [{ name := "D", rowCount := 2, columnCount := 3, cells := [] }] :=
  ⟨(createSheet_fixed_dimensions evZero stAB "c1" "C" replPayloadD true).1 (by decide),
   (createSheet_fixed_dimensions evZero stAB "r2" "C" replPayloadD true).2 (by decide)⟩

theorem apply_single_updateCell_eq (ev : String → Option CellValue) (st : EngineState)
    (opid sh : String) (r c : Nat) (x : CellValue) (s0 : Sheet)
    (hs : getSheetByName st.wb sh = some s0) :
    applyOpsToUniver ev [{ id := opid, payload := .updateCell sh r c x }] true st
      = { wb := modifySheet st.wb sh (setCellInSheet r c (setValueCell ev x)),
          hist := histSet st.hist opid (.updateCell sh r c (lookupCell s0.cells r c).v
            (tsFormula (lookupCell s0.cells r c)) (hadValueB (lookupCell s0.cells r c).v)) } := by
  have hex : sheetExists st.wb sh = true := by simp [sheetExists, hs]
  simp [applyOpsToUniver, applyOneOp, captureStateBeforeOperation, hs, applyDispatch, hex]

theorem rollback_updateCell_eq (ev : String → Option CellValue) (op : Operation)
    (st : EngineState) (sh : String) (r c : Nat) (ov : Option CellValue) (of2 : String)
    (hv : Bool) (hhist : histGet st.hist op.id = some (.updateCell sh r c ov of2 hv))
    (hex : sheetExists st.wb sh = true) :
    rollbackOperation ev op st
      = (true,
         { wb := modifySheet st.wb sh (setCellInSheet r c (restoredCell ev ov of2 hv)),
           hist := histDelete st.hist op.id }) := by
  unfold rollbackOperation
  simp [hhist, hex]

/-- Claim C4: for an UPDATE_CELL operation on an existing sheet whose target
cell is an engine-producible state, apply (with capture) followed by rollback
succeeds and restores the cell to its exact pre-operation value and formula;
in particular, when the cell held a formula before the apply, getFormula
yields that same formula after the rollback. -/
theorem updateCell_apply_rollback_roundtrip (ev : String → Option CellValue)
    (st : EngineState) (opid sh : String) (r c : Nat) (x : CellValue) (s0 : Sheet)
    (hs : getSheetByName st.wb sh = some s0)
    (hwf : cellWellFormed ev (lookupCell s0.cells r c) = true) :
    let op : Operation := { id := opid, payload := .updateCell sh r c x }
    let res := rollbackOperation ev op (applyOpsToUniver ev [op] true st)
    res.1 = true
    ∧ getCellInWb res.2.wb sh r c = lookupCell s0.cells r c
    ∧ (∀ f0, (lookupCell s0.cells r c).f = some f0 →
        tsFormula (getCellInWb res.2.wb sh r c) = f0) := by
  intro op res
  have hst1 := apply_single_updateCell_eq ev st opid sh r c x s0 hs
  have hget1 : getSheetByName (applyOpsToUniver ev [op] true st).wb sh
      = some (setCellInSheet r c (setValueCell ev x) s0) := by
    rw [hst1]
    rw [getSheetByName_modifySheet_self st.wb sh
      (setCellInSheet r c (setValueCell ev x)) (fun s => rfl), hs]
    rfl
  have hex1 : sheetExists (applyOpsToUniver ev [op] true st).wb sh = true := by
    simp [sheetExists, hget1]
  have hhist1 : histGet (applyOpsToUniver ev [op] true st).hist op.id
      = some (.updateCell sh r c (lookupCell s0.cells r c).v
          (tsFormula (lookupCell s0.cells r c)) (hadValueB (lookupCell s0.cells r c).v)) := by
    rw [hst1]
    exact histGet_histSet_self st.hist opid _
  have hnew := roundtrip_cell ev (lookupCell s0.cells r c) hwf
  have hres := rollback_updateCell_eq ev op (applyOpsToUniver ev [op] true st) sh r c
    (lookupCell s0.cells r c).v (tsFormula (lookupCell s0.cells r c))
    (hadValueB (lookupCell s0.cells r c).v) hhist1 hex1
  have hcell : getCellInWb res.2.wb sh r c = lookupCell s0.cells r c := by
    show getCellInWb (rollbackOperation ev op (applyOpsToUniver ev [op] true st)).2.wb sh r c
      = lookupCell s0.cells r c
    rw [hres]
    unfold getCellInWb
    rw [getSheetByName_modifySheet_self (applyOpsToUniver ev [op] true st).wb sh
      (setCellInSheet r c (restoredCell ev (lookupCell s0.cells r c).v
        (tsFormula (lookupCell s0.cells r c)) (hadValueB (lookupCell s0.cells r c).v)))
      (fun s => rfl), hget1]
    show lookupCell (setCellMap (setCellInSheet r c (setValueCell ev x) s0).cells r c
      (restoredCell ev (lookupCell s0.cells r c).v (tsFormula (lookupCell s0.cells r c))
        (hadValueB (lookupCell s0.cells r c).v))) r c = lookupCell s0.cells r c
    rw [lookupCell_setCellMap_self]
    exact hnew
  refine ⟨?_, hcell, ?_⟩
  · show (rollbackOperation ev op (applyOpsToUniver ev [op] true st)).1 = true
    rw [hres]
  · intro f0 hf0
    rw [hcell]
    simp [tsFormula, hf0]

/-- Claim C4, witness: the one-cell scenario, whose cell holds the number 1
and no formula, is restored exactly by apply followed by rollback. -/
theorem updateCell_apply_rollback_roundtrip_witness :
    let op : Operation := { id := "u1", payload := .updateCell "S" 0 0 (.num 5) }
    let res := rollbackOperation evZero op (applyOpsToUniver evZero [op] true st0)
    res.1 = true
    ∧ getCellInWb res.2.wb "S" 0 0 = lookupCell sampleSheet.cells 0 0
    ∧ (∀ f0, (lookupCell sampleSheet.cells 0 0).f = some f0 →
        tsFormula (getCellInWb res.2.wb "S" 0 0) = f0) :=
  updateCell_apply_rollback_roundtrip evZero st0 "u1" "S" 0 0 (.num 5) sampleSheet
    (by decide) (by decide)

/-- Claim C5: modelled from the spec (the defining revision of the
programmatic-change flag is absent from src, only its consumer in
UniverSheet.tsx remains): within the event sequence of one apply call (and of
one rollback call, the one-operation case), the module-visible flag reads
true at the moment of every engine mutation, reads false once the call has
returned (the synchronous finally reset), and the cell-change listener, which
returns early while isApplyingProgrammaticChange holds, reports none of the
mutations of the call as user edits. -/
theorem programmatic_flag_guards_mutations (ops : List Operation) :
    (∀ i oid, (applyCallEvents ops).get? i = some (.mutate oid) →
        flagAfter false ((applyCallEvents ops).take i) = true)
    ∧ flagAfter false (applyCallEvents ops) = false
    ∧ reportedAsUserEdits false (applyCallEvents ops) = [] := by
  refine ⟨?_, ?_, ?_⟩
  · intro i oid hget
    cases i with
    | zero => simp [applyCallEvents] at hget
    | succ j =>
        simp only [applyCallEvents, List.get?_cons_succ] at hget
        by_cases hj : j < (ops.map (fun o => FlagEvent.mutate o.id)).length
        · have htake : (applyCallEvents ops).take (j + 1)
              = FlagEvent.setFlag true
                :: (ops.map (fun o => FlagEvent.mutate o.id)).take j := by
            simp [applyCallEvents, List.take_succ_cons,
              List.take_append_of_le_length (le_of_lt hj)]
          rw [htake]
          show flagAfter true ((ops.map (fun o => FlagEvent.mutate o.id)).take j) = true
          rw [← List.map_take]
          exact flagAfter_mutates true (ops.take j)
        · rw [List.get?_append_right (Nat.le_of_not_lt hj)] at hget
          rcases hd : j - (ops.map (fun o => FlagEvent.mutate o.id)).length with _ | k
          · rw [hd] at hget
            simp at hget
          · rw [hd] at hget
            simp at hget
  · show flagAfter true (ops.map (fun o => FlagEvent.mutate o.id)
        ++ [FlagEvent.setFlag false]) = false
    rw [flagAfter_append, flagAfter_mutates]
    rfl
  · show reportedAsUserEdits true (ops.map (fun o => FlagEvent.mutate o.id)
        ++ [FlagEvent.setFlag false]) = []
    rw [reported_mutates]
    rfl

/-- Claim C5, witness: in the one-operation call, the sole mutation event sits
at index 1, the flag reads true there, reads false after the call, and the
listener reports nothing. -/
theorem programmatic_flag_guards_mutations_witness :
    (applyCallEvents [sampleOp]).get? 1 = some (.mutate "u1")
    ∧ flagAfter false ((applyCallEvents [sampleOp]).take 1) = true
    ∧ flagAfter false (applyCallEvents [sampleOp]) = false
    ∧ reportedAsUserEdits false (applyCallEvents [sampleOp]) = [] :=
  ⟨rfl,
   (programmatic_flag_guards_mutations [sampleOp]).1 1 "u1" rfl,
   (programmatic_flag_guards_mutations [sampleOp]).2.1,
   (programmatic_flag_guards_mutations [sampleOp]).2.2⟩

end Budgi
